import Mathlib

set_option autoImplicit false

/-!
Shallow embedding of `src/services/marketing/scraper-python/smartplace_scraper.py`
(the SmartPlaceScraper class and its helpers).  Python dicts are modelled as
association lists built by successive assignment (`dinsert`), so that the
dict semantics — assignment to an existing key replaces the value in place,
a new key is appended at the end — are explicit.  Strings are Lean `String`s;
regular-expression searches are modelled as recursive scans over `List Char`.
-/

namespace SmartPlace

/-- Menu entry as built by `_extract_with_soup` and merged by `_merge_data`:
the dict `{'name': ..., 'price': ...}`. -/
structure MenuItem where
  name : String
  price : String
deriving DecidableEq

/-- Review entry `{'rating': ..., 'text': ..., 'date': ...}`.  The rating is
`float(first digit run)` in Python, hence a natural number value. -/
structure Review where
  rating : Nat
  text : String
  date : String
deriving DecidableEq

/-- A Python dict with string keys, as the sequence of its entries in
insertion order. -/
abbrev Dict := List (String × String)

/-- Python dict assignment `d[k] = v`: replace the value at an existing key,
keeping its position, else append the new entry at the end. -/
def dinsert {α : Type} (key : α → String) (item : α) : List α → List α
  | [] => [item]
  | x :: xs => if key x = key item then item :: xs else x :: dinsert key item xs

/-- Build a dict by assigning every element of `l` in order, starting from
`acc`.  `dictFold key [] l` is the dict comprehension over `l` keyed by
`key`; `dictFold key a b` is the dict literal splat. -/
def dictFold {α : Type} (key : α → String) (acc : List α) (l : List α) : List α :=
  l.foldl (fun a it => dinsert key it a) acc

/-- The dict comprehension at line 322 of the scraper,
`{item['name']: item for item in items}.values()`: key-insertion order with
the latest value for each key. -/
def dedupBy {α : Type} (key : α → String) (l : List α) : List α :=
  dictFold key [] l

/-- First entry of `l` whose key is `n` (list search from the front). -/
def lookupBy {α : Type} (key : α → String) (n : String) : List α → Option α
  | [] => none
  | x :: xs => if key x = n then some x else lookupBy key n xs

/-- Last entry of `l` whose key is `n` — the value a Python dict built from
`l` by successive assignment holds at key `n`. -/
def lastWith {α : Type} (key : α → String) (n : String) : List α → Option α
  | [] => none
  | x :: xs =>
    match lastWith key n xs with
    | some y => some y
    | none => if key x = n then some x else none

/-- Python `d.get(k, default)` for a dict represented as its assignment
sequence. -/
def dget (d : Dict) (k v : String) : String :=
  match lastWith Prod.fst k d with
  | some p => p.2
  | none => v

/-- Candidate set returned by `_extract_with_evaluate` (the in-page
JavaScript probe): `basicInfo`, `menuItems`, `reviews`, `images`.  The `raw`
side channel carries no merged data and is omitted. -/
structure EvalData where
  basicInfo : Dict
  menuItems : List MenuItem
  reviews : List Review
  images : List String

/-- Candidate set returned by `_extract_with_soup`: `basicInfo`,
`menuItems`, `reviews` (no images). -/
structure SoupData where
  basicInfo : Dict
  menuItems : List MenuItem
  reviews : List Review

/-- The `statistics` block of the merged record:
`eval_data.get('basicInfo', {}).get('rating', 0)` and the review count. -/
structure Statistics where
  rating : String
  reviewCount : String

/-- The canonical merged record produced by `_merge_data`. -/
structure MergedData where
  basicInfo : Dict
  menuItems : List MenuItem
  reviews : List Review
  images : List String
  statistics : Statistics

/-- The `_merge_data` method (lines 304–325): `basicInfo` is the dict
literal `{**soup, **eval}`, `menuItems` is the concatenation eval ++ soup
de-duplicated through a dict comprehension keyed by name then truncated to
20, `reviews` is the concatenation truncated to 10, `images` is eval's list
truncated to 10. -/
def mergeData (e : EvalData) (s : SoupData) : MergedData :=
  { basicInfo := dictFold Prod.fst (dictFold Prod.fst [] s.basicInfo) e.basicInfo
    menuItems := (dedupBy MenuItem.name (e.menuItems ++ s.menuItems)).take 20
    reviews := (e.reviews ++ s.reviews).take 10
    images := e.images.take 10
    statistics :=
      { rating := dget e.basicInfo ("rating") ("0")
        reviewCount := dget e.basicInfo ("reviewCount") ("0") } }

/-- One step of first-occurrence key collection: keep `ks` if `k` was
already seen, else append it. -/
def keyStep (ks : List String) (k : String) : List String :=
  if k ∈ ks then ks else ks ++ [k]

/-- Keys of a dict built by successive assignment: each key at the position
of its first occurrence. -/
def firstOcc (init : List String) (l : List String) : List String :=
  l.foldl keyStep init

/-! Markup extraction (`_extract_with_soup`, lines 246–297).  BeautifulSoup
itself is a library; the parsed page is abstracted as the result of its
selector queries: `selectOne` gives the stripped text of the first element
matching a CSS selector when one exists, and `menuLis` / `reviewLis` are
the per-item query results for the two `soup.select` list selectors. -/

/-- One `li.E2jtL` menu list item: stripped text of its `span.lPzHi` name
element and `div._3qFuX` price element, when present. -/
structure MenuLi where
  name : Option String
  price : Option String
deriving DecidableEq

/-- One `li.pui__X35jYm` review list item: raw text of its rating element,
stripped text of its anchor text element and of its date element, when
present. -/
structure ReviewLi where
  rating : Option String
  text : Option String
  date : Option String
deriving DecidableEq

/-- The parsed page handed to `_extract_with_soup`. -/
structure Dom where
  selectOne : String → Option String
  menuLis : List MenuLi
  reviewLis : List ReviewLi

/-- ASCII decimal digit test, the `\d` character class for the strings the
scraper handles. -/
def isDigitCh (c : Char) : Bool :=
  ('0' ≤ c && c ≤ '9')

/-- Maximal digit run at the head of `s`. -/
def digitRun (s : List Char) : List Char :=
  s.takeWhile isDigitCh

/-- Numeric value of a digit run (Python's `float` of the matched text,
which is integral since the match is all digits). -/
def natOfDigits (l : List Char) : Nat :=
  l.foldl (fun n c => 10 * n + (c.toNat - 48)) 0

/-- Leftmost match of the regex `(\d+)`: the maximal digit run starting at
the first digit of `s`, if any. -/
def findDigits : List Char → Option (List Char)
  | [] => none
  | c :: cs => if isDigitCh c then some (digitRun (c :: cs)) else findDigits cs

/-- The `_extract_rating` method (lines 299–302): value of the first digit
run of the text, `0.0` when the text has no digit. -/
def extractRating (s : String) : Nat :=
  match findDigits s.data with
  | some d => natOfDigits d
  | none => 0

/-- First selector of the pattern list that matches an element, and that
element's stripped text (the inner loop with `break` at lines 264–269). -/
def firstHit (d : Dom) : List String → Option String
  | [] => none
  | sel :: rest =>
    match d.selectOne sel with
    | some t => some t
    | none => firstHit d rest

/-- The fixed selector table `patterns` of `_extract_with_soup`. -/
def patterns : List (String × List String) :=
  [(("name"), [("span.GHAhO"), ("span.Fc1rA"), ("h2.place_title")]),
   (("category"), [("span.lnJFt"), ("span.DJJvD")]),
   (("address"), [("span.IH7VW"), ("span.LDgIH")]),
   (("phone"), [("span.xlx7Q")])]

/-- The `basicInfo` dict built by `_extract_with_soup`: for each pattern
key in order, assign the first matching selector's text, skipping keys with
no match. -/
def extractBasic (d : Dom) : Dict :=
  patterns.foldl
    (fun acc kv =>
      match firstHit d kv.2 with
      | some t => dinsert Prod.fst (kv.1, t) acc
      | none => acc) []

/-- The menu loop of `_extract_with_soup` (lines 272–281): first 20 list
items; an item with no name element is skipped; a missing price element
becomes the empty string. -/
def extractMenu (lis : List MenuLi) : List MenuItem :=
  (lis.take 20).filterMap
    (fun li => li.name.map (fun n => { name := n, price := li.price.getD ("") }))

/-- The review loop of `_extract_with_soup` (lines 284–295): first 10 list
items; an item with no text element is skipped; a missing rating element
yields the empty rating text and a missing date element the empty date. -/
def extractReviews (lis : List ReviewLi) : List Review :=
  (lis.take 10).filterMap
    (fun li => li.text.map
      (fun t => { rating := extractRating (li.rating.getD ("")), text := t,
                  date := li.date.getD ("") }))

/-- The `_extract_with_soup` method, assembling the markup candidate set. -/
def extractWithSoup (d : Dom) : SoupData :=
  { basicInfo := extractBasic d
    menuItems := extractMenu d.menuLis
    reviews := extractReviews d.reviewLis }

/-! URL normalization (`_navigate_to_store`, lines 126–142).  Substring
containment and the regex search `(\d{8,})` are modelled as scans over the
URL's character list. -/

/-- Whether `s` begins with `pat`. -/
def startsWithL : List Char → List Char → Bool
  | [], _ => true
  | _ :: _, [] => false
  | p :: ps, c :: cs => p == c && startsWithL ps cs

/-- Python's `pat in s`: some position of `s` begins with `pat`. -/
def hasSub (pat : List Char) : List Char → Bool
  | [] => startsWithL pat []
  | c :: cs => startsWithL pat (c :: cs) || hasSub pat cs

/-- Leftmost match of the regex `(\d{8,})`: the maximal digit run at the
first position where at least 8 consecutive digits start. -/
def findRun8 : List Char → Option (List Char)
  | [] => none
  | c :: cs =>
    if 8 ≤ (digitRun (c :: cs)).length then some (digitRun (c :: cs))
    else findRun8 cs

/-- The mobile-site / generic map-site test at line 136:
`'m.place.naver.com' in url or 'map.naver.com' in url`. -/
def mobileUrl (url : List Char) : Bool :=
  hasSub ("m.place.naver.com").data url || hasSub ("map.naver.com").data url

/-- The rewrite at lines 136–139: a mobile or map URL containing a run of 8
or more digits is rewritten to the canonical desktop form built from the
first such run; otherwise the URL is unchanged. -/
def rewriteUrl (url : List Char) : List Char :=
  if mobileUrl url then
    match findRun8 url with
    | some d => ("https://pcmap.place.naver.com/restaurant/").data ++ d ++ ("/home").data
    | none => url
  else url

/-- The `_navigate_to_store` URL computation: a `naver.me` shortlink is
first resolved through the browser (abstracted as `resolve`), then the
mobile-to-desktop rewrite is applied; the result is the URL navigated to. -/
def navigateToStore (resolve : List Char → List Char) (url : List Char) : List Char :=
  rewriteUrl (if hasSub ("naver.me").data url then resolve url else url)

/-! The `scrape` session (lines 69–124) and resource handling.  The effects
of the try body — navigation, settling, extraction — are abstracted as a
session outcome: either the body completes with a final URL, an eval
candidate set and a parsed page, or some step raises with a message (the
outcome also records how far the URL had been resolved when it raised;
the handler ignores it and uses `scrape`'s own `url` parameter). -/

/-- Outcome of the try body of `scrape`. -/
inductive SessionOutcome where
  | ok (finalUrl : String) (evalD : EvalData) (dom : Dom)
  | fail (midUrl : String) (msg : String)

/-- The uniform result envelope of `scrape`. -/
structure Envelope where
  success : Bool
  data : Option MergedData
  error : Option String
  url : String
  timestamp : String

/-- The `scrape` method's returned envelope: on completion, `success=True`
with the merged record and the final URL (lines 107–112); on an exception,
`success=False` with the error text and the original input URL (lines
114–121). -/
def scrape (url : String) (ts : String) (o : SessionOutcome) : Envelope :=
  match o with
  | .ok finalUrl ev dom =>
    { success := true
      data := some (mergeData ev (extractWithSoup dom))
      error := none
      url := finalUrl
      timestamp := ts }
  | .fail _ msg =>
    { success := false
      data := none
      error := some msg
      url := url
      timestamp := ts }

/-- Resource events of one scraping session or of the scraper teardown. -/
inductive Action where
  | newContext
  | newPage
  | closeContext
  | closeBrowser
  | stopPlaywright
deriving DecidableEq

/-- Outcome of the setup-and-body sequence of one `scrape` call.  The
context and the page are created at lines 79–85, BEFORE the try block: the
body (and with it the `finally` clause) runs only when `new_page`
succeeded, and a raise from `new_page` itself escapes `scrape` with the
context still open. -/
inductive SetupOutcome where
  | bodyRun (o : SessionOutcome)
  | pageRaise (msg : String)

/-- Resource events of one `scrape` call.  When the body runs, the
`finally` clause at lines 123–124 closes the context on the success path
and on the exception path alike; when `context.new_page()` at line 85
raises, the exception propagates before the try block is entered and the
context created at line 79 is never closed. -/
def scrapeActions (o : SetupOutcome) : List Action :=
  match o with
  | .bodyRun _ => [.newContext, .newPage, .closeContext]
  | .pageRaise _ => [.newContext]

/-- Whether the scraper holds a live browser / playwright instance. -/
structure ScraperState where
  browser : Bool
  playwright : Bool

/-- The browser-setup method at lines 36–57 (named `initialize` in the
source, a reserved word here): starts playwright and launches the browser,
so both handles are live afterwards. -/
def initScraper (_ : ScraperState) : ScraperState :=
  { browser := true, playwright := true }

/-- Context-manager entry `__aenter__` (lines 27–30): runs the
browser-setup method. -/
def aenter (s : ScraperState) : ScraperState :=
  initScraper s

/-- Context-manager exit `__aexit__` (lines 32–34): awaits `self.close()`.
Line 62 of the source reads `async callable(self):` — a syntax error in
place of a `close` method definition — so the class defines no `close`
method and the release body at lines 63–67 (close the browser when one is
live, stop playwright when it is live) is unreachable through
`self.close()`.  The exit therefore releases neither handle: it emits no
release action, whatever the scraper state. -/
def aexit (_ : ScraperState) : List Action :=
  []

/-! Helper lemmas about the dict model. -/

/-- Looking a key up after one dict assignment: the assigned entry when the
key matches, the old answer otherwise. -/
theorem lookupBy_dinsert {α : Type} (key : α → String) (item : α) (n : String)
    (l : List α) :
    lookupBy key n (dinsert key item l)
      = if key item = n then some item else lookupBy key n l := by
  induction l with
  | nil => simp [dinsert, lookupBy]
  | cons x xs ih =>
    by_cases hx : key x = key item
    · simp only [dinsert, hx, if_pos, lookupBy]
      by_cases hn : key item = n
      · simp [hn]
      · simp [hn, hx, lookupBy]
    · simp only [dinsert, hx, if_neg, lookupBy, ih]
      by_cases hxn : key x = n
      · have : ¬ key item = n := fun h => hx (hxn.trans h.symm)
        simp [hxn, this]
      · simp [hxn]

/-- Looking a key up in a dict built by assigning all of `l` over `acc`:
the last entry of `l` with that key, else the old answer. -/
theorem lookupBy_dictFold {α : Type} (key : α → String) (n : String)
    (l acc : List α) :
    lookupBy key n (dictFold key acc l)
      = match lastWith key n l with
        | some y => some y
        | none => lookupBy key n acc := by
  induction l generalizing acc with
  | nil => simp [dictFold, lastWith]
  | cons it ls ih =>
    show lookupBy key n (dictFold key (dinsert key it acc) ls) = _
    rw [ih]
    show _ = (match (match lastWith key n ls with
        | some y => some y
        | none => if key it = n then some it else none) with
      | some y => some y
      | none => lookupBy key n acc)
    cases lastWith key n ls with
    | some y => rfl
    | none =>
      simp only [lookupBy_dinsert]
      by_cases h : key it = n <;> simp [h]

/-- Looking a key up in the dict comprehension over `l`: the last entry of
`l` with that key. -/
theorem lookupBy_dedupBy {α : Type} (key : α → String) (n : String) (l : List α) :
    lookupBy key n (dedupBy key l) = lastWith key n l := by
  rw [dedupBy, lookupBy_dictFold]
  cases lastWith key n l <;> simp [lookupBy]

/-- Keys after one dict assignment: unchanged when the key was present,
appended otherwise. -/
theorem map_key_dinsert {α : Type} (key : α → String) (item : α) (l : List α) :
    (dinsert key item l).map key = keyStep (l.map key) (key item) := by
  induction l with
  | nil => simp [dinsert, keyStep]
  | cons x xs ih =>
    by_cases hx : key x = key item
    · simp [dinsert, hx, keyStep]
    · have hne : ¬ key item = key x := fun h => hx h.symm
      by_cases hmem : key item ∈ xs.map key
      · simp [dinsert, hx, ih, keyStep, hmem, hne]
      · simp [dinsert, hx, ih, keyStep, hmem, hne]

/-- Keys of a dict built by assigning all of `l` over `acc`: first
occurrences of the new keys appended to the old keys. -/
theorem map_key_dictFold {α : Type} (key : α → String) (l acc : List α) :
    (dictFold key acc l).map key = firstOcc (acc.map key) (l.map key) := by
  induction l generalizing acc with
  | nil => simp [dictFold, firstOcc]
  | cons it ls ih =>
    show (dictFold key (dinsert key it acc) ls).map key = _
    rw [ih, map_key_dinsert]
    simp [firstOcc]

/-- A key-collection step preserves key distinctness. -/
theorem nodup_keyStep (ks : List String) (k : String) (h : ks.Nodup) :
    (keyStep ks k).Nodup := by
  unfold keyStep
  by_cases hmem : k ∈ ks
  · simpa [hmem] using h
  · rw [if_neg hmem]
    refine List.Nodup.append h (List.nodup_singleton k) ?_
    intro a ha hak
    rw [List.mem_singleton] at hak
    exact hmem (hak ▸ ha)

/-- First-occurrence key collection yields distinct keys. -/
theorem nodup_firstOcc (l init : List String) (h : init.Nodup) :
    (firstOcc init l).Nodup := by
  induction l generalizing init with
  | nil => simpa [firstOcc] using h
  | cons k ks ih =>
    show (firstOcc (keyStep init k) ks).Nodup
    exact ih _ (nodup_keyStep _ _ h)

/-- Membership after one dict assignment comes from the assigned entry or
from the old dict. -/
theorem mem_dinsert {α : Type} (key : α → String) (item x : α) (l : List α)
    (h : x ∈ dinsert key item l) : x = item ∨ x ∈ l := by
  induction l with
  | nil =>
    simp only [dinsert, List.mem_singleton] at h
    exact Or.inl h
  | cons y ys ih =>
    by_cases hy : key y = key item
    · simp only [dinsert, if_pos hy] at h
      rcases List.mem_cons.mp h with h1 | h1
      · exact Or.inl h1
      · exact Or.inr (List.mem_cons_of_mem _ h1)
    · simp only [dinsert, if_neg hy] at h
      rcases List.mem_cons.mp h with h1 | h1
      · exact Or.inr (h1 ▸ List.mem_cons_self _ _)
      · rcases ih h1 with h2 | h2
        · exact Or.inl h2
        · exact Or.inr (List.mem_cons_of_mem _ h2)

/-- Every entry of a dict built by successive assignment is one of the
assigned entries or an entry of the initial dict. -/
theorem mem_dictFold {α : Type} (key : α → String) (x : α) (l acc : List α)
    (h : x ∈ dictFold key acc l) : x ∈ acc ∨ x ∈ l := by
  induction l generalizing acc with
  | nil => exact Or.inl (by simpa [dictFold] using h)
  | cons it ls ih =>
    have h' : x ∈ dictFold key (dinsert key it acc) ls := h
    rcases ih _ h' with h'' | h''
    · rcases mem_dinsert key it x acc h'' with h3 | h3
      · exact Or.inr (h3 ▸ List.mem_cons_self _ _)
      · exact Or.inl h3
    · exact Or.inr (List.mem_cons_of_mem _ h'')

/-! Concrete inputs used by the claim counterexamples and witnesses. -/

/-- Eval candidate set holding only the Kimchi Stew menu entry at price
9000, as in the spec's de-duplication example. -/
def evalKimchi : EvalData :=
  { basicInfo := [], menuItems := [{ name := ("Kimchi Stew"), price := ("9000") }],
    reviews := [], images := [] }

/-- Markup candidate set holding only the Kimchi Stew menu entry at price
8500, as in the spec's de-duplication example. -/
def soupKimchi : SoupData :=
  { basicInfo := [], menuItems := [{ name := ("Kimchi Stew"), price := ("8500") }],
    reviews := [] }

/-- Empty eval candidate set. -/
def evalEmpty : EvalData :=
  { basicInfo := [], menuItems := [], reviews := [], images := [] }

/-- A parsed page whose only review list item carries the rating text
`10점`. -/
def domRating10 : Dom :=
  { selectOne := fun _ => none, menuLis := [],
    reviewLis := [{ rating := some ("10점"), text := some ("good"), date := none }] }

/-- A parsed page whose only menu list item has a present name element
with empty stripped text and no price element. -/
def domEmptyName : Dom :=
  { selectOne := fun _ => none,
    menuLis := [{ name := some (""), price := none }], reviewLis := [] }

/-- The spec's URL-rewrite example input. -/
def exMobileUrl : List Char :=
  ("https://m.place.naver.com/restaurant/12345678/home").data

/-! Claim theorems. -/

/-- Claim C1, counterexample: with the spec's own example — eval holds
Kimchi Stew at 9000 and markup holds Kimchi Stew at 8500 — the merged
`menuItems` keeps markup's later entry at price 8500, not eval's at 9000:
the dict comprehension lets the last occurrence overwrite the value. -/
theorem claim1_menu_dedup_counterexample :
    (mergeData evalKimchi soupKimchi).menuItems
      = [{ name := ("Kimchi Stew"), price := ("8500") }]
  ∧ ({ name := ("Kimchi Stew"), price := ("9000") } : MenuItem)
      ∉ (mergeData evalKimchi soupKimchi).menuItems := by
  constructor
  · decide
  · decide

/-- Claim C1 as amended: the merged `menuItems` list contains at most one
entry per name, and the entry retained for a name is the LAST occurrence of
that name in eval's list followed by markup's list — on a name present in
both, markup's entry (with markup's price) overwrites eval's, though it
keeps the first occurrence's position. -/
theorem claim1_menu_dedup_amended :
    (∀ (e : EvalData) (s : SoupData),
        (((mergeData e s).menuItems).map MenuItem.name).Nodup)
  ∧ (∀ (l : List MenuItem) (n : String),
        lookupBy MenuItem.name n (dedupBy MenuItem.name l)
          = lastWith MenuItem.name n l) := by
  constructor
  · intro e s
    show (((dedupBy MenuItem.name (e.menuItems ++ s.menuItems)).take 20).map
      MenuItem.name).Nodup
    rw [List.map_take]
    refine List.Nodup.sublist (List.take_sublist _ _) ?_
    rw [dedupBy, map_key_dictFold]
    exact nodup_firstOcc _ _ (by simp)
  · intro l n
    exact lookupBy_dedupBy _ _ _

/-- Claim C2 (confirmed): for every input URL and session outcome the
envelope's `data` field is present exactly when `success` is true and the
`error` field exactly when `success` is false. -/
theorem claim2_envelope_gating (url ts : String) (o : SessionOutcome) :
    ((scrape url ts o).data.isSome = (scrape url ts o).success)
  ∧ ((scrape url ts o).error.isSome = !(scrape url ts o).success) := by
  cases o with
  | ok finalUrl ev dom => exact ⟨rfl, rfl⟩
  | fail mid msg => exact ⟨rfl, rfl⟩

/-- Claim C3 (code bug): the claim fails on the source as staged.  The
context-manager exit releases neither the browser nor the playwright
engine — line 62 is `async callable(self):`, a syntax error in place of the
`close` method that `__aexit__` awaits — and the exit path where
`context.new_page()` raises (line 85, before the try block) leaves the
context unclosed.  Only the paths through the try body close the context,
via the `finally` clause. -/
theorem claim3_resources_code_bug :
    (∀ st : ScraperState, aexit (aenter st) = [])
  ∧ (∀ msg : String,
      Action.closeContext ∉ scrapeActions (SetupOutcome.pageRaise msg))
  ∧ (∀ o : SessionOutcome,
      Action.closeContext ∈ scrapeActions (SetupOutcome.bodyRun o)) := by
  refine ⟨?_, ?_, ?_⟩
  · intro st
    rfl
  · intro msg
    simp [scrapeActions]
  · intro o
    simp [scrapeActions]

/-- Claim C4 (confirmed): for every pair of candidate sets the merged
record has at most 20 menu items, 10 reviews and 10 images. -/
theorem claim4_caps (e : EvalData) (s : SoupData) :
    (mergeData e s).menuItems.length ≤ 20
  ∧ (mergeData e s).reviews.length ≤ 10
  ∧ (mergeData e s).images.length ≤ 10 := by
  refine ⟨?_, ?_, ?_⟩ <;> simp [mergeData, List.length_take]

/-- Claim C5 (confirmed): whatever exception message the session body
raises, and however far the URL had been resolved, the envelope reports
`success=false`, carries the failure's message, and echoes the original
input URL exactly as passed to `scrape`. -/
theorem claim5_failure_envelope (url ts mid msg : String) :
    (scrape url ts (SessionOutcome.fail mid msg)).success = false
  ∧ (scrape url ts (SessionOutcome.fail mid msg)).error = some msg
  ∧ (scrape url ts (SessionOutcome.fail mid msg)).url = url :=
  ⟨rfl, rfl, rfl⟩

/-- Claim C6 (confirmed): the merged `basicInfo` answers every key lookup
from eval's candidate dict first and falls back to markup's dict only for
keys eval did not set — eval wins on every field set by both. -/
theorem claim6_basicInfo_merge (e : EvalData) (s : SoupData) (k : String) :
    lookupBy Prod.fst k ((mergeData e s).basicInfo)
      = match lastWith Prod.fst k e.basicInfo with
        | some p => some p
        | none => lastWith Prod.fst k s.basicInfo := by
  show lookupBy Prod.fst k
      (dictFold Prod.fst (dedupBy Prod.fst s.basicInfo) e.basicInfo) = _
  rw [lookupBy_dictFold]
  cases lastWith Prod.fst k e.basicInfo with
  | some p => rfl
  | none => exact lookupBy_dedupBy _ _ _

/-- Claim C7 (confirmed): a URL matching the mobile-site or map-site
pattern whose first run of 8 or more digits is `d` is rewritten to the
canonical desktop form built from `d`, and a URL matching neither pattern
is used unchanged. -/
theorem claim7_url_rewrite (url : List Char) :
    (mobileUrl url = true →
      ∀ d : List Char, findRun8 url = some d →
        rewriteUrl url
          = ("https://pcmap.place.naver.com/restaurant/").data ++ d ++ ("/home").data)
  ∧ (mobileUrl url = false → rewriteUrl url = url) := by
  constructor
  · intro hm d hd
    simp [rewriteUrl, hm, hd]
  · intro hm
    simp [rewriteUrl, hm]

/-- Witness for claim C7 at the spec's example: the mobile URL with
identifier 12345678 is rewritten to the canonical desktop URL. -/
theorem claim7_url_rewrite_witness :
    mobileUrl exMobileUrl = true
  ∧ findRun8 exMobileUrl = some (("12345678").data)
  ∧ rewriteUrl exMobileUrl
      = ("https://pcmap.place.naver.com/restaurant/").data
          ++ ("12345678").data ++ ("/home").data :=
  ⟨by decide, by decide,
    (claim7_url_rewrite exMobileUrl).1 (by decide) (("12345678").data) (by decide)⟩

/-- Claim C8, counterexample: a review whose rating text is `10점` is
extracted and merged with rating 10, which exceeds the claimed bound 5. -/
theorem claim8_rating_counterexample :
    (mergeData evalEmpty (extractWithSoup domRating10)).reviews
      = [{ rating := 10, text := ("good"), date := ("") }]
  ∧ ¬ (10 ≤ 5) := by
  constructor
  · decide
  · decide

/-- Claim C8 as amended: every review extracted from markup carries the
rating computed by `_extract_rating` from its rating text, and that value
is the numeric value of the text's first digit run — 0 when the text has no
digit, 4 for `별점 4점` — but it is not bounded by 5. -/
theorem claim8_rating_amended :
    (∀ s : String, findDigits s.data = none → extractRating s = 0)
  ∧ (∀ (s : String) (d : List Char),
      findDigits s.data = some d → extractRating s = natOfDigits d)
  ∧ (extractRating ("별점 4점") = 4)
  ∧ (∀ (lis : List ReviewLi) (r : Review), r ∈ extractReviews lis →
      ∃ li ∈ lis, r.rating = extractRating (li.rating.getD (""))) := by
  refine ⟨?_, ?_, ?_, ?_⟩
  · intro s h
    unfold extractRating
    rw [h]
  · intro s d h
    unfold extractRating
    rw [h]
  · decide
  · intro lis r hr
    unfold extractReviews at hr
    rcases List.mem_filterMap.mp hr with ⟨li, hli, hf⟩
    rcases Option.map_eq_some'.mp hf with ⟨t, ht, hrt⟩
    refine ⟨li, List.mem_of_mem_take hli, ?_⟩
    rw [← hrt]

/-- Witness for claim C8 as amended, at concrete rating texts and a
concrete review list item. -/
theorem claim8_rating_amended_witness :
    (extractRating ("별점") = 0)
  ∧ (extractRating ("10점") = natOfDigits (("10").data))
  ∧ (∃ li ∈ [({ rating := some ("4점"), text := some ("hi"), date := none } : ReviewLi)],
      (({ rating := 4, text := ("hi"), date := ("") } : Review)).rating
        = extractRating (li.rating.getD (""))) :=
  ⟨claim8_rating_amended.1 ("별점") (by decide),
   claim8_rating_amended.2.1 ("10점") (("10").data) (by decide),
   claim8_rating_amended.2.2.2
     [({ rating := some ("4점"), text := some ("hi"), date := none } : ReviewLi)]
     ({ rating := 4, text := ("hi"), date := ("") } : Review) (by decide)⟩

/-- Claim C9, counterexample: a menu list item whose name element is
present but has empty stripped text yields a merged entry with the empty
name. -/
theorem claim9_menu_fields_counterexample :
    (mergeData evalEmpty (extractWithSoup domEmptyName)).menuItems
      = [{ name := (""), price := ("") }]
  ∧ ∃ it ∈ (mergeData evalEmpty (extractWithSoup domEmptyName)).menuItems,
      it.name = ("") := by
  constructor
  · decide
  · exact ⟨{ name := (""), price := ("") }, by decide, rfl⟩

/-- Claim C9 as amended: every menu entry extracted from markup comes from
a list item whose name element was present — an item with an absent name
element is skipped, and an absent price element becomes the empty string —
but the name itself may be the empty string; and every merged menu entry
comes from eval's or markup's list. -/
theorem claim9_menu_fields_amended :
    (∀ (lis : List MenuLi) (it : MenuItem), it ∈ extractMenu lis →
      ∃ li ∈ lis, li.name = some it.name ∧ it.price = li.price.getD (""))
  ∧ (∀ (e : EvalData) (s : SoupData) (it : MenuItem),
      it ∈ (mergeData e s).menuItems → it ∈ e.menuItems ∨ it ∈ s.menuItems) := by
  constructor
  · intro lis it hit
    unfold extractMenu at hit
    rcases List.mem_filterMap.mp hit with ⟨li, hli, hf⟩
    rcases Option.map_eq_some'.mp hf with ⟨n, hn, hni⟩
    refine ⟨li, List.mem_of_mem_take hli, ?_, ?_⟩
    · cases hni
      simpa using hn
    · cases hni
      rfl
  · intro e s it hit
    have hit' : it ∈ (dedupBy MenuItem.name (e.menuItems ++ s.menuItems)).take 20 := hit
    have hmem := List.mem_of_mem_take hit'
    rcases mem_dictFold MenuItem.name it _ _ hmem with h | h
    · exact absurd h (List.not_mem_nil _)
    · exact List.mem_append.mp h

/-- Witness for claim C9 as amended, at a concrete markup item and the
spec's Kimchi Stew example lists. -/
theorem claim9_menu_fields_amended_witness :
    (∃ li ∈ [({ name := some ("Kimbap"), price := none } : MenuLi)],
      li.name = some (({ name := ("Kimbap"), price := ("") } : MenuItem)).name
        ∧ (({ name := ("Kimbap"), price := ("") } : MenuItem)).price = li.price.getD (""))
  ∧ (({ name := ("Kimchi Stew"), price := ("8500") } : MenuItem) ∈ evalKimchi.menuItems
      ∨ ({ name := ("Kimchi Stew"), price := ("8500") } : MenuItem) ∈ soupKimchi.menuItems) :=
  ⟨claim9_menu_fields_amended.1
     [({ name := some ("Kimbap"), price := none } : MenuLi)]
     ({ name := ("Kimbap"), price := ("") } : MenuItem) (by decide),
   claim9_menu_fields_amended.2 evalKimchi soupKimchi
     ({ name := ("Kimchi Stew"), price := ("8500") } : MenuItem) (by decide)⟩

/-- Claim C10 (confirmed): the names of the merged `menuItems` list are
exactly the first occurrences, in order, of the names in eval's list
followed by markup's list (truncated to 20): de-duplication removes later
duplicate positions and never reorders the survivors. -/
theorem claim10_menu_order (e : EvalData) (s : SoupData) :
    ((mergeData e s).menuItems).map MenuItem.name
      = (firstOcc [] ((e.menuItems ++ s.menuItems).map MenuItem.name)).take 20 := by
  show (((dedupBy MenuItem.name (e.menuItems ++ s.menuItems)).take 20).map
    MenuItem.name) = _
  rw [List.map_take, dedupBy, map_key_dictFold]
  rfl

end SmartPlace
